import Mathlib

/-!
Shallow embedding of the Event Store & Broadcast Hub of
`claude-code-radar` (`src/backend/events.py`, `src/backend/main.py`,
`src/backend/database.py`), together with theorems settling the frozen
claims about the natural-language specification.

Modelling conventions:
* SQLite rows of the `events` table become the structure `Row`; the
  `created_at DATETIME DEFAULT CURRENT_TIMESTAMP` column is DB-internal,
  never read by any query in the repository, and is omitted.
* Python `Optional[...]` becomes `Option ...`; Python string truthiness
  (`if session_id:` is false for both `None` and `""`) is modelled
  explicitly by `truthyStr`.
* The JSON payload document is modelled as an association list
  `List (String × String)`; `json.dumps`/`json.loads` are taken as a
  faithful injective round-trip, so storing the serialized payload is
  modelled as storing the document itself.  Python dict truthiness
  (`json.dumps(payload) if payload else None` in `save_event`) makes an
  empty dict fall to the `None` branch; this is modelled exactly.
* `ORDER BY ... DESC LIMIT n` becomes a stable insertion sort (`stableSort`)
  followed by `List.take`.  SQLite leaves the relative order of ties
  unspecified; every concrete example below uses distinct keys so no
  theorem depends on the tie-breaking choice.
* `time.time()` is replaced by an explicit `now_ms : Int` parameter
  (milliseconds since epoch), so `cutoff = int((time.time() - m*60)*1000)`
  becomes `now_ms - m * 60000`.
* sqlite `INTEGER PRIMARY KEY AUTOINCREMENT` on an append-only table that
  starts empty assigns ids 1,2,3,…; `save_event` therefore returns
  `store.length + 1` and appends.
* The FastAPI layer (`main.py`) becomes a state-passing function over
  `ServerState` (the persistent store plus the `sse_clients` queue list);
  a possible sqlite failure in `save_event` is modelled by an `avail` flag:
  when false the write raises and `receive_event` answers with the 500
  error path.  `asyncio.Queue()` without `maxsize` is an unbounded FIFO,
  modelled as a `List` that `await queue.put` appends to.
-/

/-! ## Definitions -/

/-- SQLite sort key order is irrelevant here; we only need Int and Nat keys. -/
abbrev Payload := List (String × String)

/-- One row of the `events` table (`database.py`, `init_db`),
minus the unused `created_at` column. -/
structure Row where
  id : Nat
  timestamp : Int
  session_id : String
  hook_event_type : String
  source_app : Option String := none
  model_name : Option String := none
  tool_name : Option String := none
  payload : Option Payload := none
  summary : Option String := none
deriving Repr, DecidableEq

/-- A validated inbound event: the pydantic `Event` model of `main.py`
after validation has succeeded (all required fields present and typed). -/
structure EventIn where
  timestamp : Int
  session_id : String
  hook_event_type : String
  source_app : Option String := none
  model_name : Option String := none
  tool_name : Option String := none
  payload : Option Payload := none
  summary : Option String := none
deriving Repr, DecidableEq

/-- Python string truthiness: `None` and `""` are falsy.
`get_events` uses `if session_id:` / `if event_type:` on `Optional[str]`. -/
def truthyStr : Option String → Bool
  | none => false
  | some s => !(s == "")

/-- Stable insertion into a list ordered by the strict order `lt`:
the new element goes after every element it does not strictly precede. -/
def insOrd (lt : α → α → Bool) (x : α) : List α → List α
  | [] => [x]
  | y :: ys => if lt x y then x :: y :: ys else y :: insOrd lt x ys

/-- Stable sort by repeated ordered insertion (left fold keeps the input
order of elements the strict order `lt` does not separate).  Deterministic
stand-in for SQLite `ORDER BY`. -/
def stableSort (lt : α → α → Bool) (l : List α) : List α :=
  l.foldl (fun acc x => insOrd lt x acc) []

/-- First-occurrence deduplication (deterministic stand-in for the grouping
key set produced by SQLite `GROUP BY`). -/
def distinctL (l : List String) : List String :=
  l.foldl (fun acc x => if acc.contains x then acc else acc ++ [x]) []

/-- The row `save_event` inserts (`events.py` lines 19–33): fields verbatim
except `payload`, where `json.dumps(payload) if payload else None` maps both
a missing and an *empty* dict to SQL `NULL`. -/
def storedPayload : Option Payload → Option Payload
  | none => none
  | some p => if p.isEmpty then none else some p

/-- `save_event` (`events.py`): insert one row, return the AUTOINCREMENT id.
On an append-only store that began empty, sqlite assigns `length + 1`. -/
def save_event (store : List Row) (ev : EventIn) : List Row × Nat :=
  let id := store.length + 1
  (store ++ [{ id := id
               timestamp := ev.timestamp
               session_id := ev.session_id
               hook_event_type := ev.hook_event_type
               source_app := ev.source_app
               model_name := ev.model_name
               tool_name := ev.tool_name
               payload := storedPayload ev.payload
               summary := ev.summary }], id)

/-- Row filter built by `get_events`'s dynamic `WHERE` clause: a filter
participates only when the Python value is truthy (`if session_id:`),
so `None` and `""` both mean "no filter". -/
def rowMatches (session_id event_type : Option String) (r : Row) : Bool :=
  (!truthyStr session_id || (r.session_id == session_id.getD "")) &&
  (!truthyStr event_type || (r.hook_event_type == event_type.getD ""))

/-- Strict comparison for `ORDER BY timestamp DESC`: `a` comes strictly
before `b` when its timestamp is larger. -/
def tsDesc (a b : Row) : Bool := decide (b.timestamp < a.timestamp)

/-- `get_events` (`events.py` lines 37–68): optional truthy equality filters,
`ORDER BY timestamp DESC LIMIT limit`.  (The JSON payload round-trip on read
is the identity under the serialization convention of this file.) -/
def get_events (store : List Row) (limit : Nat)
    (session_id event_type : Option String) : List Row :=
  (stableSort tsDesc (store.filter (rowMatches session_id event_type))).take limit

/-- One row of the `get_active_sessions` result set. -/
structure SessionInfo where
  session_id : String
  model_name : Option String
  last_activity : Int
  event_count : Nat
deriving Repr, DecidableEq

/-- The correlated subquery of `get_active_sessions`: the `model_name` of the
session's row with the largest `timestamp` — over **all** rows of that
session, not only those inside the window (`ORDER BY timestamp DESC LIMIT 1`). -/
def latestModelByTimestamp (store : List Row) (sid : String) : Option String :=
  match stableSort tsDesc (store.filter (fun r => r.session_id == sid)) with
  | [] => none
  | r :: _ => r.model_name

/-- Largest timestamp of a (nonempty) row group, `MAX(e.timestamp)`. -/
def maxTs : List Row → Int
  | [] => 0
  | r :: rs => rs.foldl (fun m x => max m x.timestamp) r.timestamp

/-- Strict comparison for `ORDER BY last_activity DESC`. -/
def laDesc (a b : SessionInfo) : Bool := decide (b.last_activity < a.last_activity)

/-- `get_active_sessions` (`events.py` lines 70–95): group the rows with
`timestamp > cutoff` by `session_id`; report the correlated-subquery
`model_name`, `MAX(timestamp)` and `COUNT(*)`, ordered by last activity
descending.  `cutoff = int((time.time() - minutes*60)*1000)` becomes
`now_ms - minutes*60000`. -/
def get_active_sessions (store : List Row) (now_ms : Int) (minutes : Nat) :
    List SessionInfo :=
  let cutoff : Int := now_ms - minutes * 60000
  let inWindow := store.filter (fun r => decide (cutoff < r.timestamp))
  let sids := distinctL (inWindow.map (·.session_id))
  let infos := sids.map (fun sid =>
    let rows := inWindow.filter (fun r => r.session_id == sid)
    { session_id := sid
      model_name := latestModelByTimestamp store sid
      last_activity := maxTs rows
      event_count := rows.length })
  stableSort laDesc infos

/-- Result of `get_tool_stats`.  `success_failure` is a dict keyed by
`status`; it is modelled by its two lookups (a key grouped over zero rows is
absent from the dict, i.e. the count is 0). -/
structure ToolStats where
  tool_usage : List (String × Nat)
  success : Nat
  failure : Nat
deriving Repr, DecidableEq

/-- Strict comparison for `ORDER BY count DESC` on usage pairs. -/
def cntDesc (a b : String × Nat) : Bool := decide (b.2 < a.2)

/-- The fixed tool-outcome event types of `get_tool_stats`'s second query. -/
def isToolOutcome (t : String) : Bool :=
  t == "PostToolUse" || t == "PostToolUseFailure"

/-- `get_tool_stats` (`events.py` lines 97–136): `cutoff = now_ms - hours*3600000`;
(a) rows with `timestamp > cutoff` and non-NULL `tool_name` grouped by
`tool_name`, ordered by count descending; (b) rows with a tool-outcome
`hook_event_type`, bucketed `failure` iff the type is `PostToolUseFailure`. -/
def get_tool_stats (store : List Row) (now_ms : Int) (hours : Nat) : ToolStats :=
  let cutoff : Int := now_ms - hours * 3600000
  let inWindow := store.filter (fun r => decide (cutoff < r.timestamp))
  let withTool := inWindow.filter (fun r => r.tool_name.isSome)
  let names := distinctL (withTool.map (fun r => r.tool_name.getD ""))
  let usage := names.map (fun n =>
    (n, (withTool.filter (fun r => r.tool_name.getD "" == n)).length))
  let outcomes := inWindow.filter (fun r => isToolOutcome r.hook_event_type)
  { tool_usage := stableSort cntDesc usage
    success :=
      (outcomes.filter (fun r => !(r.hook_event_type == "PostToolUseFailure"))).length
    failure :=
      (outcomes.filter (fun r => r.hook_event_type == "PostToolUseFailure")).length }

/-- A raw JSON value for one field of an inbound request body. -/
inductive JVal where
  | jint (n : Int)
  | jstr (s : String)
  | jnull
deriving Repr, DecidableEq

/-- An inbound request body before pydantic validation: each required field
is absent (`none`) or some raw value of whatever type the producer sent.
The optional fields are not at issue in any claim and are carried through
already typed. -/
structure RawCandidate where
  timestamp : Option JVal
  session_id : Option JVal
  hook_event_type : Option JVal
  source_app : Option String := none
  model_name : Option String := none
  tool_name : Option String := none
  payload : Option Payload := none
  summary : Option String := none
deriving Repr, DecidableEq

/-- The pydantic model `Event` (`main.py` lines 24–32): `timestamp : int`,
`session_id : str`, `hook_event_type : str` must be present with the right
type; pydantic's `str` does **not** require non-emptiness. -/
def parseEvent (c : RawCandidate) : Option EventIn :=
  match c.timestamp, c.session_id, c.hook_event_type with
  | some (.jint ts), some (.jstr sid), some (.jstr et) =>
    some { timestamp := ts
           session_id := sid
           hook_event_type := et
           source_app := c.source_app
           model_name := c.model_name
           tool_name := c.tool_name
           payload := c.payload
           summary := c.summary }
  | _, _, _ => none

/-- The broadcast message: `event.model_dump()` of the *submitted* event with
the assigned `id` added (`main.py` lines 62–64) — note the payload is the
one submitted, not the normalized stored one. -/
def broadcastRow (id : Nat) (ev : EventIn) : Row :=
  { id := id
    timestamp := ev.timestamp
    session_id := ev.session_id
    hook_event_type := ev.hook_event_type
    source_app := ev.source_app
    model_name := ev.model_name
    tool_name := ev.tool_name
    payload := ev.payload
    summary := ev.summary }

/-- Server state: the persistent store plus `sse_clients`, the list of
per-subscriber `asyncio.Queue()` FIFOs (unbounded, so a plain list). -/
structure ServerState where
  store : List Row
  clients : List (List Row)
deriving Repr, DecidableEq

/-- Outcome of a request handler: the HTTP-visible result. -/
inductive HResult where
  | ok (event_id : Nat)
  | error (detail : String)
deriving Repr, DecidableEq

/-- `receive_event` (`main.py` lines 46–72): save to the database first; only
if the save succeeds, put the identified event on every subscriber queue and
answer ok.  A raised storage error is caught and returned as the 500
`StorageUnavailable` path with no broadcast.  `avail` models whether the
storage medium accepts the write. -/
def receive_event (avail : Bool) (ev : EventIn) (st : ServerState) :
    HResult × ServerState :=
  if avail then
    let (store', id) := save_event st.store ev
    (HResult.ok id,
     { store := store'
       clients := st.clients.map (fun q => q ++ [broadcastRow id ev]) })
  else
    (HResult.error "StorageUnavailable", st)

/-- The full `POST /events` boundary: FastAPI/pydantic validation happens
before the handler body; an invalid body is rejected with no side effect. -/
def handle_post (avail : Bool) (c : RawCandidate) (st : ServerState) :
    HResult × ServerState :=
  match parseEvent c with
  | none => (HResult.error "InvalidEvent", st)
  | some ev => receive_event avail ev st

/-- `event_generator` (`main.py` lines 96–106) registers a fresh empty queue
in `sse_clients`; an ingest broadcasts to every registered queue.  A run of
the server interleaves these two actions. -/
inductive SAction where
  | sub
  | ing (ev : EventIn)

/-- One server step: a new stream subscription, or one accepted ingest. -/
def step (st : ServerState) : SAction → ServerState
  | .sub => { st with clients := st.clients ++ [[]] }
  | .ing ev => (receive_event true ev st).2

/-- Run a sequence of server actions. -/
def run (st : ServerState) (tr : List SAction) : ServerState :=
  tr.foldl step st

/-- The broadcast messages published while running `tr`, given the store
length at the start (ids continue from it). -/
def pubsFrom (storeLen : Nat) : List SAction → List Row
  | [] => []
  | .sub :: tr => pubsFrom storeLen tr
  | .ing ev :: tr => broadcastRow (storeLen + 1) ev :: pubsFrom (storeLen + 1) tr

/-- Sequential ingest of a batch into the store, as in claim C8:
fold `save_event` from left, collecting the returned ids. -/
def saveAll (store : List Row) (evs : List EventIn) : List Row × List Nat :=
  evs.foldl (fun acc ev =>
    ((save_event acc.1 ev).1, acc.2 ++ [(save_event acc.1 ev).2])) (store, [])

/-- Strict comparison for reading the store in ascending id order. -/
def idAsc (a b : Row) : Bool := decide (a.id < b.id)

/-- Closed witness for `c10_empty_filter_noop` at a concrete store. -/
def w10row : Row :=
  { id := 1, timestamp := 5, session_id := "s1", hook_event_type := "T" }

/-- Two matching rows whose timestamp order disagrees with their id order. -/
def c1rowA : Row := { id := 1, timestamp := 200, session_id := "a", hook_event_type := "T" }

def c1rowB : Row := { id := 2, timestamp := 100, session_id := "a", hook_event_type := "T" }

def c1store : List Row := [c1rowA, c1rowB]

/-- The five-event scenario store of claim C1: ids 1..5 for session `s1`,
with timestamps increasing with id. -/
def c1demo : List Row :=
  [ { id := 1, timestamp := 10, session_id := "s1", hook_event_type := "T" },
    { id := 2, timestamp := 20, session_id := "s1", hook_event_type := "T" },
    { id := 3, timestamp := 30, session_id := "s1", hook_event_type := "T" },
    { id := 4, timestamp := 40, session_id := "s1", hook_event_type := "T" },
    { id := 5, timestamp := 50, session_id := "s1", hook_event_type := "T" } ]

/-- Counterexample store for C2: one session `s` whose row with the larger
id (2) has the *smaller* timestamp and model `B`, while the row with id 1
has the larger timestamp and model `A`. -/
def c2rowA : Row :=
  { id := 1, timestamp := 2000000, session_id := "s", hook_event_type := "T",
    model_name := some "A" }

def c2rowB : Row :=
  { id := 2, timestamp := 1000000, session_id := "s", hook_event_type := "T",
    model_name := some "B" }

def c2store : List Row := [c2rowA, c2rowB]

/-- Concrete window-scenario store for C2: session `w1` has an event 30
minutes before `now_ms = 10000000`, session `w2` one 90 minutes before. -/
def c2winStore : List Row :=
  [ { id := 1, timestamp := 8200000, session_id := "w1", hook_event_type := "T" },
    { id := 2, timestamp := 4600000, session_id := "w2", hook_event_type := "T" } ]

/-- A candidate event whose payload is the empty structured document. -/
def c3emptyPayloadEv : EventIn :=
  { timestamp := 5, session_id := "s", hook_event_type := "T", payload := some [] }

/-- Closed witness for `c3_amended`: a candidate with a non-empty payload
and all optional fields set round-trips unchanged. -/
def c3fullEv : EventIn :=
  { timestamp := 7, session_id := "sess", hook_event_type := "PostToolUse",
    source_app := some "app", model_name := some "m", tool_name := some "Bash",
    payload := some [("k", "v")], summary := some "sum" }

/-- Scenario row builder for C4: a `Bash` tool record with outcome type `t`. -/
def bashRow (i : Nat) (t : String) : Row :=
  { id := i, timestamp := 1000 + (i : Int), session_id := "s",
    hook_event_type := t, tool_name := some "Bash" }

/-- Scenario store for C4: 8 success-outcome and 2 failure-outcome records
for tool `Bash`, all inside a 1-hour window ending at `now_ms = 3601000`. -/
def c4store : List Row :=
  [ bashRow 1 "PostToolUse", bashRow 2 "PostToolUse", bashRow 3 "PostToolUse",
    bashRow 4 "PostToolUse", bashRow 5 "PostToolUse", bashRow 6 "PostToolUse",
    bashRow 7 "PostToolUse", bashRow 8 "PostToolUse",
    bashRow 9 "PostToolUseFailure", bashRow 10 "PostToolUseFailure" ]

/-- Closed witness for `c5_store_before_broadcast` with one subscriber. -/
def c5ev : EventIn := { timestamp := 3, session_id := "s", hook_event_type := "T" }

/-- The required field `timestamp` is present and integer-typed. -/
def isIntField : Option JVal → Bool
  | some (.jint _) => true
  | _ => false

/-- A required string field is present and string-typed (possibly empty). -/
def isStrField : Option JVal → Bool
  | some (.jstr _) => true
  | _ => false

/-- A candidate whose required string fields are present but empty. -/
def c6emptyStrings : RawCandidate :=
  { timestamp := some (.jint 5), session_id := some (.jstr ""),
    hook_event_type := some (.jstr "") }

/-- Closed witness for `c6_validation`: a candidate missing `timestamp` is
rejected with no side effect. -/
def c6missingTs : RawCandidate :=
  { timestamp := none, session_id := some (.jstr "s"),
    hook_event_type := some (.jstr "T") }

/-- A server with one connected (never-reading) subscriber and empty store. -/
def stalled0 : ServerState := { store := [], clients := [[]] }

def c7ev : EventIn := { timestamp := 0, session_id := "s", hook_event_type := "T" }

/-- Length of the stalled subscriber's queue after `n` events are ingested. -/
def queueLenAfter (n : Nat) : Nat :=
  ((run stalled0 (List.replicate n (.ing c7ev))).clients.getD 0 []).length

/-- Closed witness for `c9_no_replay`: with one record already stored, a
subscriber that joins afterwards receives only the later event, whose id
(2) differs from the stored id (1). -/
def c9row : Row := { id := 1, timestamp := 1, session_id := "s", hook_event_type := "T" }

/-! ## Theorems -/

theorem insOrd_perm (lt : α → α → Bool) (x : α) (l : List α) :
    List.Perm (insOrd lt x l) (x :: l) := by
  induction l with
  | nil => exact List.Perm.refl _
  | cons y ys ih =>
    simp only [insOrd]
    split
    · exact List.Perm.refl _
    · exact List.Perm.trans (List.Perm.cons y ih) (List.Perm.swap x y ys)

theorem foldl_insOrd_perm (lt : α → α → Bool) :
    ∀ (l acc : List α),
      List.Perm (l.foldl (fun acc x => insOrd lt x acc) acc) (acc ++ l) := by
  intro l
  induction l with
  | nil => intro acc; simp
  | cons x xs ih =>
    intro acc
    have h₁ := ih (insOrd lt x acc)
    have h₂ : List.Perm (insOrd lt x acc ++ xs) ((x :: acc) ++ xs) :=
      (insOrd_perm lt x acc).append_right xs
    have h₃ : List.Perm ((x :: acc) ++ xs) (acc ++ x :: xs) :=
      List.Perm.symm List.perm_middle
    simp only [List.foldl_cons]
    exact h₁.trans (h₂.trans h₃)

theorem stableSort_perm (lt : α → α → Bool) (l : List α) :
    List.Perm (stableSort lt l) l := by
  simpa [stableSort] using foldl_insOrd_perm lt l []

theorem mem_stableSort (lt : α → α → Bool) (l : List α) (a : α) :
    a ∈ stableSort lt l ↔ a ∈ l :=
  (stableSort_perm lt l).mem_iff

theorem length_stableSort (lt : α → α → Bool) (l : List α) :
    (stableSort lt l).length = l.length :=
  (stableSort_perm lt l).length_eq

/-- Inserting preserves sortedness (`R a b` := `a` may come before `b`,
i.e. `lt b a = false`), provided `lt` is transitive and asymmetric. -/
theorem insOrd_pairwise {lt : α → α → Bool}
    (htr : ∀ a b c, lt a b = true → lt b c = true → lt a c = true)
    (has : ∀ a b, lt a b = true → lt b a = false)
    (x : α) (l : List α)
    (h : List.Pairwise (fun a b => lt b a = false) l) :
    List.Pairwise (fun a b => lt b a = false) (insOrd lt x l) := by
  induction l with
  | nil => simp [insOrd]
  | cons y ys ih =>
    rcases List.pairwise_cons.mp h with ⟨hy, hys⟩
    simp only [insOrd]
    split
    · rename_i hxy
      refine List.pairwise_cons.mpr ⟨?_, h⟩
      intro z hz
      rcases List.mem_cons.mp hz with rfl | hzys
      · exact has x z hxy
      · by_contra hc
        have hzx : lt z x = true := by
          cases hzx : lt z x with
          | false => exact absurd hzx hc
          | true => rfl
        have : lt z y = true := htr z x y hzx hxy
        rw [hy z hzys] at this
        exact Bool.false_ne_true this
    · rename_i hxy
      refine List.pairwise_cons.mpr ⟨?_, ih hys⟩
      intro z hz
      have hz' : z ∈ x :: ys := (insOrd_perm lt x ys).mem_iff.mp hz
      rcases List.mem_cons.mp hz' with rfl | hzys
      · simpa using hxy
      · exact hy z hzys

theorem foldl_insOrd_pairwise {lt : α → α → Bool}
    (htr : ∀ a b c, lt a b = true → lt b c = true → lt a c = true)
    (has : ∀ a b, lt a b = true → lt b a = false) :
    ∀ (l acc : List α),
      List.Pairwise (fun a b => lt b a = false) acc →
      List.Pairwise (fun a b => lt b a = false)
        (l.foldl (fun acc x => insOrd lt x acc) acc) := by
  intro l
  induction l with
  | nil => intro acc h; simpa
  | cons x xs ih =>
    intro acc h
    simp only [List.foldl_cons]
    exact ih (insOrd lt x acc) (insOrd_pairwise htr has x acc h)

/-- The output of `stableSort` is sorted: no later element strictly
precedes an earlier one. -/
theorem stableSort_pairwise {lt : α → α → Bool}
    (htr : ∀ a b c, lt a b = true → lt b c = true → lt a c = true)
    (has : ∀ a b, lt a b = true → lt b a = false) (l : List α) :
    List.Pairwise (fun a b => lt b a = false) (stableSort lt l) :=
  foldl_insOrd_pairwise htr has l [] (List.Pairwise.nil)

theorem insOrd_eq_append {lt : α → α → Bool} (x : α) (l : List α)
    (h : ∀ y ∈ l, lt x y = false) : insOrd lt x l = l ++ [x] := by
  induction l with
  | nil => rfl
  | cons y ys ih =>
    simp only [insOrd]
    rw [if_neg]
    · rw [ih (fun z hz => h z (List.mem_cons_of_mem y hz))]; rfl
    · simp [h y (List.mem_cons_self y ys)]

/-- A list already sorted for `lt` (each earlier element is not strictly
preceded by any later one) is a fixed point of `stableSort`. -/
theorem stableSort_eq_self {lt : α → α → Bool} (l : List α)
    (h : List.Pairwise (fun a b => lt b a = false) l) :
    stableSort lt l = l := by
  suffices H : ∀ (l acc : List α),
      List.Pairwise (fun a b => lt b a = false) (acc ++ l) →
      l.foldl (fun acc x => insOrd lt x acc) acc = acc ++ l by
    simpa [stableSort] using H l [] (by simpa using h)
  intro l
  induction l with
  | nil => intro acc _; simp
  | cons x xs ih =>
    intro acc hp
    have hx : ∀ y ∈ acc, lt x y = false := by
      intro y hy
      have := (List.pairwise_append.mp hp).2.2 y hy x (List.mem_cons_self x xs)
      exact this
    simp only [List.foldl_cons]
    rw [insOrd_eq_append x acc hx, ih (acc ++ [x]) (by simpa using hp)]
    simp

theorem mem_distinctL (l : List String) (x : String) :
    x ∈ distinctL l ↔ x ∈ l := by
  suffices H : ∀ (l acc : List String),
      x ∈ l.foldl (fun acc x => if acc.contains x then acc else acc ++ [x]) acc ↔
        x ∈ acc ∨ x ∈ l by
    simpa [distinctL] using H l []
  intro l
  induction l with
  | nil => intro acc; simp
  | cons y ys ih =>
    intro acc
    simp only [List.foldl_cons]
    split
    · rename_i hy
      rw [ih acc]
      constructor
      · rintro (h | h)
        · exact Or.inl h
        · exact Or.inr (List.mem_cons_of_mem y h)
      · rintro (h | h)
        · exact Or.inl h
        · rcases List.mem_cons.mp h with rfl | h
          · exact Or.inl (by simpa using hy)
          · exact Or.inr h
    · rw [ih (acc ++ [y])]
      simp only [List.mem_append, List.mem_singleton, List.mem_cons]
      tauto

theorem tsDesc_trans (a b c : Row) :
    tsDesc a b = true → tsDesc b c = true → tsDesc a c = true := by
  simp only [tsDesc, decide_eq_true_eq]; omega

theorem tsDesc_asymm (a b : Row) : tsDesc a b = true → tsDesc b a = false := by
  simp only [tsDesc, decide_eq_true_eq, decide_eq_false_iff_not]; omega

theorem laDesc_trans (a b c : SessionInfo) :
    laDesc a b = true → laDesc b c = true → laDesc a c = true := by
  simp only [laDesc, decide_eq_true_eq]; omega

theorem laDesc_asymm (a b : SessionInfo) : laDesc a b = true → laDesc b a = false := by
  simp only [laDesc, decide_eq_true_eq, decide_eq_false_iff_not]; omega

theorem cntDesc_trans (a b c : String × Nat) :
    cntDesc a b = true → cntDesc b c = true → cntDesc a c = true := by
  simp only [cntDesc, decide_eq_true_eq]; omega

theorem cntDesc_asymm (a b : String × Nat) : cntDesc a b = true → cntDesc b a = false := by
  simp only [cntDesc, decide_eq_true_eq, decide_eq_false_iff_not]; omega

/-- Claim C10: passing `""` as the `session_id` filter (or the `event_type`
filter) of the list-events query applies no filter at all — the truthiness
test `if session_id:` skips the `WHERE` clause — and whenever a non-empty
filter string is supplied, every returned record carries exactly that
`session_id`, so a record whose `session_id` is `""` can never be selected
by an equality filter. -/
theorem c10_empty_filter_noop (store : List Row) (limit : Nat)
    (sid et : Option String) (f : String) :
    (get_events store limit (some "") et = get_events store limit none et) ∧
    (get_events store limit sid (some "") = get_events store limit sid none) ∧
    (f ≠ "" → ∀ r ∈ get_events store limit (some f) et, r.session_id = f) := by
  refine ⟨?_, ?_, ?_⟩
  · have h : store.filter (rowMatches (some "") et) = store.filter (rowMatches none et) :=
      List.filter_congr (fun r _ => by simp [rowMatches, truthyStr])
    simp [get_events, h]
  · have h : store.filter (rowMatches sid (some "")) = store.filter (rowMatches sid none) :=
      List.filter_congr (fun r _ => by simp [rowMatches, truthyStr])
    simp [get_events, h]
  · intro hf r hr
    have h₁ : r ∈ stableSort tsDesc (store.filter (rowMatches (some f) et)) :=
      List.mem_of_mem_take hr
    have h₂ : r ∈ store.filter (rowMatches (some f) et) :=
      (mem_stableSort _ _ _).mp h₁
    have h₃ := (List.mem_filter.mp h₂).2
    simp only [rowMatches, truthyStr, Option.getD_some] at h₃
    have hfne : (f == "") = false := by
      cases hfe : f == "" with
      | false => rfl
      | true => exact absurd (by simpa using hfe) hf
    rw [hfne] at h₃
    simp only [Bool.not_false, Bool.true_and, Bool.and_eq_true, Bool.or_eq_true] at h₃
    rcases h₃ with ⟨h₃, _⟩
    rcases h₃ with h₃ | h₃
    · simp at h₃
    · exact by simpa using h₃

theorem c10_empty_filter_noop_witness :
    "s1" ≠ "" ∧ w10row.session_id = "s1" :=
  ⟨by decide,
   (c10_empty_filter_noop [w10row] 5 none none "s1").2.2 (by decide) w10row (by decide)⟩

/-- Claim C1 as stated is false: `get_events` orders by `timestamp DESC`
(`events.py` line 55), not by `id` descending.  On a store whose row with
id 1 has a larger timestamp than the row with id 2, the unfiltered query
returns ids `[1, 2]`, which is not ordered by id descending. -/
theorem c1_counterexample :
    ((get_events c1store 10 none none).map (·.id) = [1, 2]) ∧
    ¬ ((get_events c1store 10 none none).map (·.id)).Pairwise (fun a b => b ≤ a) := by
  constructor
  · rfl
  · decide

/-- Claim C1 amended: the list-events query returns only matching records
from the store, ordered by `timestamp` descending (most recent timestamp
first, not id), bounded by `limit`; the concrete 5-event scenario returns
ids 5, 4, 3 provided the five events carry timestamps increasing with id. -/
theorem c1_amended (store : List Row) (limit : Nat) (sid et : Option String) :
    ((get_events store limit sid et).length ≤ limit) ∧
    (∀ r ∈ get_events store limit sid et, r ∈ store ∧ rowMatches sid et r = true) ∧
    ((get_events store limit sid et).Pairwise
      (fun a b => b.timestamp ≤ a.timestamp)) ∧
    ((get_events c1demo 3 (some "s1") none).map (·.id) = [5, 4, 3]) := by
  refine ⟨?_, ?_, ?_, ?_⟩
  · exact List.length_take_le limit _
  · intro r hr
    have h₁ : r ∈ store.filter (rowMatches sid et) :=
      (mem_stableSort _ _ _).mp (List.mem_of_mem_take hr)
    exact ⟨(List.mem_filter.mp h₁).1, (List.mem_filter.mp h₁).2⟩
  · have hs := stableSort_pairwise tsDesc_trans tsDesc_asymm
      (store.filter (rowMatches sid et))
    have ht := hs.sublist (List.take_sublist limit _)
    exact ht.imp (by
      intro a b h
      simpa [tsDesc, decide_eq_false_iff_not] using h)
  · rfl

/-- Closed witness for `c1_amended` at a concrete store. -/
theorem c1_amended_witness : c1rowA ∈ c1store ∧ rowMatches none none c1rowA = true :=
  (c1_amended c1store 10 none none).2.1 c1rowA (by decide)

/-- The head of the timestamp-descending sort is the strict-maximum row:
if `r` belongs to session `sid` and strictly out-timestamps every other row
of that session, the correlated subquery of `get_active_sessions` reports
`r.model_name`. -/
theorem latestModel_eq_of_strict_max (store : List Row) (sid : String) (r : Row)
    (hr : r ∈ store) (hsid : r.session_id = sid)
    (hmax : ∀ r' ∈ store, r'.session_id = sid → r' ≠ r →
      r'.timestamp < r.timestamp) :
    latestModelByTimestamp store sid = r.model_name := by
  have hrf : r ∈ store.filter (fun x => x.session_id == sid) :=
    List.mem_filter.mpr ⟨hr, by simp [hsid]⟩
  have hrs : r ∈ stableSort tsDesc (store.filter (fun x => x.session_id == sid)) :=
    (mem_stableSort _ _ _).mpr hrf
  unfold latestModelByTimestamp
  rcases hh : stableSort tsDesc (store.filter (fun x => x.session_id == sid)) with
    _ | ⟨h, t⟩
  · rw [hh] at hrs; exact absurd hrs (List.not_mem_nil r)
  · have hps := stableSort_pairwise tsDesc_trans tsDesc_asymm
      (store.filter (fun x => x.session_id == sid))
    rw [hh] at hps hrs
    rcases List.pairwise_cons.mp hps with ⟨hhead, _⟩
    have hhmem : h ∈ store.filter (fun x => x.session_id == sid) := by
      have : h ∈ stableSort tsDesc (store.filter (fun x => x.session_id == sid)) := by
        rw [hh]; exact List.mem_cons_self h t
      exact (mem_stableSort _ _ _).mp this
    have hhstore : h ∈ store := (List.mem_filter.mp hhmem).1
    have hhsid : h.session_id = sid := by
      have := (List.mem_filter.mp hhmem).2; simpa using this
    by_cases heq : h = r
    · rw [heq]
    · exfalso
      have hlt : h.timestamp < r.timestamp := hmax h hhstore hhsid heq
      rcases List.mem_cons.mp hrs with rfl | hrt
      · exact heq rfl
      · have := hhead r hrt
        simp only [tsDesc, decide_eq_false_iff_not] at this
        omega

/-- Claim C2 as stated is false: the correlated subquery of
`get_active_sessions` picks `model_name` by largest `timestamp`
(`ORDER BY timestamp DESC LIMIT 1`, `events.py` line 82), not largest `id`.
With both rows of session `s` inside a 60-minute window (`now_ms = 3000000`),
the view reports model `A` (largest timestamp, id 1) although the record
with the largest id (2) carries model `B`. -/
theorem c2_counterexample :
    ((get_active_sessions c2store 3000000 60).map (·.model_name) = [some "A"]) ∧
    c2rowB.id = 2 ∧ c2rowA.id = 1 ∧ c2rowB.model_name = some "B" ∧
    some "A" ≠ (some "B" : Option String) := by
  refine ⟨rfl, rfl, rfl, rfl, by decide⟩

/-- Claim C2 amended: for each distinct `session_id` having a record with
`timestamp` strictly inside the trailing window, the view reports the
`model_name` of that session's record with the largest **timestamp**
(computed over all of the session's records, not only in-window ones), the
maximum in-window timestamp, and the in-window record count, ordered by
most-recent-activity descending; a 60-minute window includes a session whose
event is 30 minutes old and excludes one whose only event is 90 minutes old. -/
theorem c2_amended (store : List Row) (now_ms : Int) (minutes : Nat)
    (sid : String) (r : Row)
    (hr : r ∈ store) (hsid : r.session_id = sid)
    (hmax : ∀ r' ∈ store, r'.session_id = sid → r' ≠ r →
      r'.timestamp < r.timestamp) :
    ((∃ s ∈ get_active_sessions store now_ms minutes, s.session_id = sid) ↔
      (∃ rr ∈ store, rr.session_id = sid ∧
        now_ms - minutes * 60000 < rr.timestamp)) ∧
    ((get_active_sessions store now_ms minutes).Pairwise
      (fun a b => b.last_activity ≤ a.last_activity)) ∧
    (∀ s ∈ get_active_sessions store now_ms minutes,
      s.model_name = latestModelByTimestamp store s.session_id ∧
      s.event_count = (store.filter (fun x => x.session_id == s.session_id &&
        decide (now_ms - minutes * 60000 < x.timestamp))).length) ∧
    (latestModelByTimestamp store sid = r.model_name) ∧
    ((get_active_sessions c2winStore 10000000 60).map (·.session_id) = ["w1"]) := by
  refine ⟨?_, ?_, ?_, latestModel_eq_of_strict_max store sid r hr hsid hmax, rfl⟩
  · constructor
    · rintro ⟨s, hs, rfl⟩
      have hs' := (mem_stableSort _ _ _).mp hs
      rcases List.mem_map.mp hs' with ⟨sid', hsid', hinfo⟩
      have hsids : sid' ∈ (store.filter
          (fun x => decide (now_ms - minutes * 60000 < x.timestamp))).map
          (·.session_id) := (mem_distinctL _ _).mp hsid'
      rcases List.mem_map.mp hsids with ⟨rr, hrr, hrrsid⟩
      refine ⟨rr, (List.mem_filter.mp hrr).1, ?_, ?_⟩
      · rw [hrrsid, ← hinfo]
      · have := (List.mem_filter.mp hrr).2; simpa using this
    · rintro ⟨rr, hrr, hrrsid, hrrwin⟩
      have hrrf : rr ∈ store.filter
          (fun x => decide (now_ms - minutes * 60000 < x.timestamp)) :=
        List.mem_filter.mpr ⟨hrr, by simpa using hrrwin⟩
      have hsids : sid ∈ distinctL ((store.filter
          (fun x => decide (now_ms - minutes * 60000 < x.timestamp))).map
          (·.session_id)) :=
        (mem_distinctL _ _).mpr (List.mem_map.mpr ⟨rr, hrrf, hrrsid⟩)
      refine ⟨_, (mem_stableSort _ _ _).mpr
        (List.mem_map.mpr ⟨sid, hsids, rfl⟩), rfl⟩
  · have hgen : ∀ (L : List SessionInfo), (stableSort laDesc L).Pairwise
        (fun a b => b.last_activity ≤ a.last_activity) := by
      intro L
      exact (stableSort_pairwise laDesc_trans laDesc_asymm L).imp (by
        intro a b h
        simpa [laDesc, decide_eq_false_iff_not] using h)
    simp only [get_active_sessions]
    exact hgen _
  · intro s hs
    have hs' := (mem_stableSort _ _ _).mp hs
    rcases List.mem_map.mp hs' with ⟨sid', _, hinfo⟩
    subst hinfo
    refine ⟨rfl, ?_⟩
    rw [List.filter_filter]

/-- Closed witness for `c2_amended`: in `c2store`, row `c2rowA` is the
strict-timestamp maximum of session `s`. -/
theorem c2_amended_witness :
    latestModelByTimestamp c2store "s" = c2rowA.model_name :=
  (c2_amended c2store 3000000 60 "s" c2rowA (by decide) (by decide)
    (by decide)).2.2.2.1

/-- Claim C3 as stated is false for an empty structured payload: `save_event`
runs `json.dumps(payload) if payload else None`, and an empty dict is falsy
in Python, so the stored column is `NULL` and the record reads back with
payload `None`, not the submitted empty document. -/
theorem c3_counterexample :
    ((get_events (save_event [] c3emptyPayloadEv).1 1 (some "s") (some "T")).map
      (·.payload) = [none]) ∧
    (none : Option Payload) ≠ some [] ∧ c3emptyPayloadEv.payload = some [] := by
  refine ⟨rfl, by decide, rfl⟩

/-- Claim C3 amended: a candidate accepted by ingest reads back through the
query boundary with matching filters field-identical in every field —
timestamp, session_id, event_type, source_app, model_name, tool_name,
payload, summary — with only the id newly assigned, for every optional-field
combination **except** an empty structured payload, which reads back as
`none`. -/
theorem c3_amended (ev : EventIn) (hp : ev.payload ≠ some []) :
    get_events (save_event [] ev).1 1 (some ev.session_id)
        (some ev.hook_event_type) =
      [{ id := 1, timestamp := ev.timestamp, session_id := ev.session_id,
         hook_event_type := ev.hook_event_type, source_app := ev.source_app,
         model_name := ev.model_name, tool_name := ev.tool_name,
         payload := ev.payload, summary := ev.summary }] := by
  have hsp : storedPayload ev.payload = ev.payload := by
    rcases hpv : ev.payload with _ | p
    · rfl
    · rcases p with _ | ⟨kv, p'⟩
      · exact absurd hpv hp
      · rfl
  have hm : rowMatches (some ev.session_id) (some ev.hook_event_type)
      { id := 1, timestamp := ev.timestamp, session_id := ev.session_id,
        hook_event_type := ev.hook_event_type, source_app := ev.source_app,
        model_name := ev.model_name, tool_name := ev.tool_name,
        payload := ev.payload, summary := ev.summary } = true := by
    simp [rowMatches, truthyStr]
  simp [get_events, save_event, stableSort, insOrd, hsp, hm]

theorem c3_amended_witness :
    get_events (save_event [] c3fullEv).1 1 (some "sess") (some "PostToolUse") =
      [{ id := 1, timestamp := 7, session_id := "sess",
         hook_event_type := "PostToolUse", source_app := some "app",
         model_name := some "m", tool_name := some "Bash",
         payload := some [("k", "v")], summary := some "sum" }] :=
  c3_amended c3fullEv (by decide)

/-- Claim C4: over in-window records, `get_tool_stats` (a) counts records
grouped by non-null `tool_name` ordered by count descending, and (b) buckets
tool-outcome records (`PostToolUse`/`PostToolUseFailure`) into success vs
failure, with exactly the failure-tagged type counting as failure; on the
8-success/2-failure `Bash` scenario it reports success 8, failure 2 and
tool usage `[("Bash", 10)]`. -/
theorem c4_tool_stats (store : List Row) (now_ms : Int) (hours : Nat) :
    ((get_tool_stats store now_ms hours).failure =
      (store.filter (fun r => decide (now_ms - hours * 3600000 < r.timestamp) &&
        (r.hook_event_type == "PostToolUseFailure"))).length) ∧
    ((get_tool_stats store now_ms hours).success =
      (store.filter (fun r => decide (now_ms - hours * 3600000 < r.timestamp) &&
        (r.hook_event_type == "PostToolUse"))).length) ∧
    ((get_tool_stats store now_ms hours).tool_usage.Pairwise
      (fun a b => b.2 ≤ a.2)) ∧
    (∀ p ∈ (get_tool_stats store now_ms hours).tool_usage,
      ∃ r ∈ store, decide (now_ms - hours * 3600000 < r.timestamp) ∧
        r.tool_name.isSome ∧ r.tool_name.getD "" = p.1) ∧
    (get_tool_stats c4store 3601000 1 =
      { tool_usage := [("Bash", 10)], success := 8, failure := 2 }) := by
  refine ⟨?_, ?_, ?_, ?_, rfl⟩
  · simp only [get_tool_stats, List.filter_filter]
    refine congrArg List.length (List.filter_congr (fun r _ => ?_))
    by_cases h2 : r.hook_event_type = "PostToolUseFailure"
    · simp [isToolOutcome, h2, Bool.and_comm]
    · have e2 : (r.hook_event_type == "PostToolUseFailure") = false := by simpa using h2
      simp [isToolOutcome, e2]
  · simp only [get_tool_stats, List.filter_filter]
    refine congrArg List.length (List.filter_congr (fun r _ => ?_))
    by_cases h1 : r.hook_event_type = "PostToolUse"
    · simp [isToolOutcome, h1, Bool.and_comm]
    · by_cases h2 : r.hook_event_type = "PostToolUseFailure"
      · simp [isToolOutcome, h1, h2, Bool.and_comm]
      · have e1 : (r.hook_event_type == "PostToolUse") = false := by simpa using h1
        have e2 : (r.hook_event_type == "PostToolUseFailure") = false := by simpa using h2
        simp [isToolOutcome, e1, e2]
  · have hgen : ∀ (L : List (String × Nat)), (stableSort cntDesc L).Pairwise
        (fun a b => b.2 ≤ a.2) := by
      intro L
      exact (stableSort_pairwise cntDesc_trans cntDesc_asymm L).imp (by
        intro a b h
        simpa [cntDesc, decide_eq_false_iff_not] using h)
    simp only [get_tool_stats]
    exact hgen _
  · intro p hp
    simp only [get_tool_stats] at hp
    have hp' := (mem_stableSort _ _ _).mp hp
    rcases List.mem_map.mp hp' with ⟨n, hn, hpair⟩
    have hn' := (mem_distinctL _ _).mp hn
    rcases List.mem_map.mp hn' with ⟨r, hr, hrn⟩
    have hr₁ := List.mem_filter.mp hr
    have hr₂ := List.mem_filter.mp hr₁.1
    refine ⟨r, hr₂.1, by simpa using hr₂.2, by simpa using hr₁.2, ?_⟩
    rw [hrn, ← hpair]

/-- Closed witness for `c4_tool_stats`: the `("Bash", 10)` usage entry comes
from an in-window `Bash` record of the scenario store. -/
theorem c4_tool_stats_witness :
    ∃ r ∈ c4store, decide (3601000 - 1 * 3600000 < r.timestamp) ∧
      r.tool_name.isSome ∧ r.tool_name.getD "" = "Bash" :=
  (c4_tool_stats c4store 3601000 1).2.2.2.1 ("Bash", 10) (by decide)

/-- Claim C5: when the storage medium is unavailable the ingest endpoint
returns the `StorageUnavailable` error and leaves the state untouched — in
particular no subscriber queue receives anything; when the write succeeds,
each subscriber queue is extended by exactly the one identified record, and
that record's id is the id of a record present in the store after the call
(broadcast only ever follows a successful durable write). -/
theorem c5_store_before_broadcast (ev : EventIn) (st : ServerState) (i : Nat)
    (hi : i < st.clients.length) :
    (receive_event false ev st = (HResult.error "StorageUnavailable", st)) ∧
    ((receive_event true ev st).2.clients.getD i [] =
      st.clients.getD i [] ++ [broadcastRow (st.store.length + 1) ev]) ∧
    (∃ r ∈ (receive_event true ev st).2.store,
      r.id = (broadcastRow (st.store.length + 1) ev).id ∧
      r.session_id = ev.session_id ∧ r.hook_event_type = ev.hook_event_type ∧
      r.timestamp = ev.timestamp) := by
  refine ⟨rfl, ?_, ?_⟩
  · simp [receive_event, save_event]
    rw [List.getElem?_eq_getElem hi]
    rfl
  · refine ⟨({ id := st.store.length + 1
               timestamp := ev.timestamp
               session_id := ev.session_id
               hook_event_type := ev.hook_event_type
               source_app := ev.source_app
               model_name := ev.model_name
               tool_name := ev.tool_name
               payload := storedPayload ev.payload
               summary := ev.summary } : Row), ?_, rfl, rfl, rfl, rfl⟩
    simp [receive_event, save_event]

theorem c5_store_before_broadcast_witness :
    (receive_event false c5ev ⟨[], [[]]⟩ =
      (HResult.error "StorageUnavailable", ⟨[], [[]]⟩)) ∧
    ((receive_event true c5ev ⟨[], [[]]⟩).2.clients.getD 0 [] =
      [] ++ [broadcastRow 1 c5ev]) ∧
    (∃ r ∈ (receive_event true c5ev ⟨[], [[]]⟩).2.store,
      r.id = (broadcastRow 1 c5ev).id ∧ r.session_id = c5ev.session_id ∧
      r.hook_event_type = c5ev.hook_event_type ∧ r.timestamp = c5ev.timestamp) :=
  c5_store_before_broadcast c5ev ⟨[], [[]]⟩ 0 (by decide)

/-- Claim C6 as stated is false: pydantic's `str` type accepts the empty
string, so a candidate whose `session_id` and `event_type` are both `""`
passes validation, is stored (side effect), and is answered `ok` — it is
not rejected. -/
theorem c6_counterexample :
    ((handle_post true c6emptyStrings ⟨[], []⟩).1 = HResult.ok 1) ∧
    ((handle_post true c6emptyStrings ⟨[], []⟩).2.store.length = 1) := by
  exact ⟨rfl, rfl⟩

/-- Claim C6 amended: ingest fails validation (and performs no store or
broadcast side effect) exactly when a required field is missing or ill-typed
— `timestamp` not an integer, or `session_id` / `event_type` not a string;
presence and type are all that pydantic checks, so empty strings are
accepted, not rejected. -/
theorem c6_validation (c : RawCandidate) (st : ServerState) (avail : Bool) :
    (parseEvent c = none ↔
      (isIntField c.timestamp && isStrField c.session_id &&
        isStrField c.hook_event_type) = false) ∧
    (parseEvent c = none →
      handle_post avail c st = (HResult.error "InvalidEvent", st)) := by
  constructor
  · obtain ⟨ts, sid, et, sa, mn, tn, pl, sm⟩ := c
    rcases ts with _ | ⟨n⟩ | ⟨s⟩ | _ <;>
    rcases sid with _ | ⟨n'⟩ | ⟨s'⟩ | _ <;>
    rcases et with _ | ⟨n''⟩ | ⟨s''⟩ | _ <;>
      simp [parseEvent, isIntField, isStrField]
  · intro hnone
    simp [handle_post, hnone]

theorem c6_validation_witness :
    handle_post true c6missingTs ⟨[], []⟩ = (HResult.error "InvalidEvent", ⟨[], []⟩) :=
  (c6_validation c6missingTs ⟨[], []⟩ true).2 (by decide)

theorem getD_append_empty (L : List (List Row)) (i : Nat) (h : i < L.length) :
    (L ++ [[]]).getD i [] = L.getD i [] := by
  rw [List.getD_eq_getElem?_getD, List.getD_eq_getElem?_getD,
    List.getElem?_append_left h]

theorem getD_concat_self (L : List (List Row)) :
    (L ++ [[]]).getD L.length [] = [] := by
  rw [List.getD_eq_getElem?_getD, List.getElem?_concat_length]
  rfl

theorem getD_map_push (L : List (List Row)) (b : Row) (i : Nat)
    (h : i < L.length) :
    (L.map (fun q => q ++ [b])).getD i [] = L.getD i [] ++ [b] := by
  rw [List.getD_eq_getElem?_getD, List.getD_eq_getElem?_getD,
    List.getElem?_map, List.getElem?_eq_getElem h]
  rfl

/-- Every queue present before a run accumulates exactly the broadcast
messages published during the run, in publish order. -/
theorem run_clients_getD (tr : List SAction) :
    ∀ (st : ServerState) (i : Nat), i < st.clients.length →
      (run st tr).clients.getD i [] =
        st.clients.getD i [] ++ pubsFrom st.store.length tr := by
  induction tr with
  | nil => intro st i hi; simp [run, pubsFrom]
  | cons a tr ih =>
    intro st i hi
    have hrun : run st (a :: tr) = run (step st a) tr := rfl
    rw [hrun]
    cases a with
    | sub =>
      have hlen : i < (step st .sub).clients.length := by
        simp [step]; omega
      rw [ih (step st .sub) i hlen]
      have h₁ : (step st .sub).clients.getD i [] = st.clients.getD i [] :=
        getD_append_empty st.clients i hi
      rw [h₁]
      rfl
    | ing ev =>
      have hc : (step st (.ing ev)).clients =
          st.clients.map (fun q => q ++ [broadcastRow (st.store.length + 1) ev]) :=
        rfl
      have hlen : i < (step st (.ing ev)).clients.length := by
        rw [hc, List.length_map]; exact hi
      rw [ih (step st (.ing ev)) i hlen, hc, getD_map_push st.clients _ i hi]
      have hsl : (step st (.ing ev)).store.length = st.store.length + 1 := by
        simp [step, receive_event, save_event]
      rw [hsl]
      simp [pubsFrom]

/-- Published broadcast messages carry ids strictly above the store length
at the start of the run. -/
theorem pubsFrom_id_gt : ∀ (tr : List SAction) (n : Nat) (q : Row),
    q ∈ pubsFrom n tr → n < q.id := by
  intro tr
  induction tr with
  | nil => intro n q hq; simp [pubsFrom] at hq
  | cons a tr ih =>
    intro n q hq
    cases a with
    | sub => exact ih n q hq
    | ing ev =>
      rcases List.mem_cons.mp (by simpa [pubsFrom] using hq) with rfl | h
      · simp [broadcastRow]
      · have := ih (n + 1) q h; omega

theorem pubsFrom_replicate_length (ev : EventIn) :
    ∀ (n m : Nat), (pubsFrom m (List.replicate n (SAction.ing ev))).length = n := by
  intro n
  induction n with
  | zero => intro m; rfl
  | succ k ih => intro m; simp [List.replicate_succ, pubsFrom, ih]

theorem queueLenAfter_eq (n : Nat) : queueLenAfter n = n := by
  unfold queueLenAfter
  rw [run_clients_getD _ stalled0 0 (by simp [stalled0])]
  simp [stalled0, pubsFrom_replicate_length]

/-- Claim C7 as stated is false: `sse_clients` queues are `asyncio.Queue()`
with no `maxsize`, so a stalled subscriber's queue length is not bounded by
any fixed bound — after `B + 1` publishes it holds `B + 1` events, and no
drop-oldest or close-subscriber policy exists anywhere in `main.py`. -/
theorem c7_counterexample : ¬ ∃ B, ∀ n, queueLenAfter n ≤ B := by
  rintro ⟨B, hB⟩
  have h := hB (B + 1)
  rw [queueLenAfter_eq] at h
  omega

/-- Claim C7 amended: each subscriber's delivery queue is unbounded;
every publish appends the event to every registered subscriber's queue,
removes no subscriber, and drops nothing, so a stalled subscriber's queue
after `n` publishes holds exactly the `n` events. -/
theorem c7_amended (st : ServerState) (ev : EventIn) (i : Nat)
    (hi : i < st.clients.length) :
    ((receive_event true ev st).2.clients.length = st.clients.length) ∧
    ((receive_event true ev st).2.clients.getD i [] =
      st.clients.getD i [] ++ [broadcastRow (st.store.length + 1) ev]) ∧
    (∀ n, queueLenAfter n = n) := by
  refine ⟨by simp [receive_event, save_event], ?_, queueLenAfter_eq⟩
  have hc : (receive_event true ev st).2.clients =
      st.clients.map (fun q => q ++ [broadcastRow (st.store.length + 1) ev]) := rfl
  rw [hc, getD_map_push st.clients _ i hi]

/-- Closed witness for `c7_amended` with one subscriber. -/
theorem c7_amended_witness :
    ((receive_event true c7ev stalled0).2.clients.length = 1) ∧
    ((receive_event true c7ev stalled0).2.clients.getD 0 [] =
      [] ++ [broadcastRow 1 c7ev]) ∧
    (∀ n, queueLenAfter n = n) :=
  c7_amended stalled0 c7ev 0 (by decide)

theorem saveAll_fold_ids (evs : List EventIn) :
    ∀ (s : List Row) (ids : List Nat),
      ((evs.foldl (fun acc ev =>
          ((save_event acc.1 ev).1, acc.2 ++ [(save_event acc.1 ev).2]))
        (s, ids)).1.map (·.id) =
        s.map (·.id) ++ List.range' (s.length + 1) evs.length) ∧
      ((evs.foldl (fun acc ev =>
          ((save_event acc.1 ev).1, acc.2 ++ [(save_event acc.1 ev).2]))
        (s, ids)).2 =
        ids ++ List.range' (s.length + 1) evs.length) := by
  induction evs with
  | nil => intro s ids; simp
  | cons ev evs ih =>
    intro s ids
    simp only [List.foldl_cons]
    have h := ih ((save_event s ev).1) (ids ++ [(save_event s ev).2])
    constructor
    · rw [h.1]
      simp only [List.length_cons]
      rw [List.range'_succ]
      simp [save_event]
    · rw [h.2]
      simp only [List.length_cons]
      rw [List.range'_succ]
      simp [save_event]

/-- Claim C8: ingesting a batch of N accepted events into an empty store
returns exactly the ids 1..N in order (no duplicates, no gaps), the stored
records carry ids that are unique and strictly increasing in commit order,
and reading the store in ascending-id order returns it unchanged (the
id-ordered query agrees with commit order). -/
theorem c8_gap_free_ids (evs : List EventIn) :
    ((saveAll [] evs).2 = List.range' 1 evs.length) ∧
    ((saveAll [] evs).1.map (·.id) = List.range' 1 evs.length) ∧
    ((saveAll [] evs).1.Pairwise (fun a b => a.id < b.id)) ∧
    (stableSort idAsc (saveAll [] evs).1 = (saveAll [] evs).1) := by
  have h := saveAll_fold_ids evs [] []
  have hmap : (saveAll [] evs).1.map (·.id) = List.range' 1 evs.length := by
    simpa [saveAll] using h.1
  have hids : (saveAll [] evs).2 = List.range' 1 evs.length := by
    simpa [saveAll] using h.2
  have hpw : (saveAll [] evs).1.Pairwise (fun a b => a.id < b.id) := by
    have hr := List.pairwise_lt_range' 1 evs.length
    rw [← hmap] at hr
    exact List.pairwise_map.mp hr
  refine ⟨hids, hmap, hpw, ?_⟩
  exact stableSort_eq_self _ (hpw.imp (by
    intro a b hab
    simp only [idAsc, decide_eq_false_iff_not]
    omega))

/-- Claim C9: a subscriber registered before a run of the server (its queue
is the one created by the `subscribe` step) ends the run with its queue equal
to exactly the broadcast messages published during the run, in publish
order — so it receives every later event, in order; and, provided the store
satisfies the id invariant (every stored id is at most the store length, as
in every reachable store), no message it ever receives has the id of a
record stored before it subscribed: history is never replayed. -/
theorem c9_no_replay (st : ServerState) (tr : List SAction)
    (hids : ∀ r ∈ st.store, r.id ≤ st.store.length) :
    ((run (step st .sub) tr).clients.getD st.clients.length [] =
      pubsFrom st.store.length tr) ∧
    (∀ r ∈ st.store,
      ∀ q ∈ (run (step st .sub) tr).clients.getD st.clients.length [],
        q.id ≠ r.id) := by
  have hlen : st.clients.length < (step st .sub).clients.length := by
    simp [step]
  have hq : (run (step st .sub) tr).clients.getD st.clients.length [] =
      pubsFrom st.store.length tr := by
    rw [run_clients_getD tr (step st .sub) st.clients.length hlen]
    have h0 : (step st .sub).clients.getD st.clients.length [] = [] :=
      getD_concat_self st.clients
    rw [h0]
    rfl
  refine ⟨hq, ?_⟩
  intro r hr q hqmem
  rw [hq] at hqmem
  have h1 := pubsFrom_id_gt tr st.store.length q hqmem
  have h2 := hids r hr
  omega

theorem c9_no_replay_witness :
    ((run (step ⟨[c9row], []⟩ .sub) [.ing c7ev]).clients.getD 0 [] =
      pubsFrom 1 [.ing c7ev]) ∧
    (∀ r ∈ [c9row],
      ∀ q ∈ (run (step ⟨[c9row], []⟩ .sub) [.ing c7ev]).clients.getD 0 [],
        q.id ≠ r.id) :=
  c9_no_replay ⟨[c9row], []⟩ [.ing c7ev] (by decide)
